import Mathlib

/-!
# Verification of the ML Insights trainer/predictor core

Shallow embedding of `ml_trainer.py` (class `MLTrainer`) and `predictor.py`
(function `predict`).  Numeric cell values are modelled as rationals `ℚ`
(the Python code uses IEEE floats; every claim settled here is about
control flow, shapes, reuse of fitted state, or exact bookkeeping, not
about float rounding).  Missing values (pandas `NaN`) are modelled as
`Option ℚ` with `none` for a missing cell.  Matrices are kept
column-major: a matrix is the list of its columns.

External collaborators (scikit-learn model fitting, joblib
serialization, CSV IO) are opaque: a fitted model is a `Model` record of
functions, model fitting is a parameter of `train`, and
`joblib.dump`/`joblib.load` are the identity on the in-memory bundle.
The scikit-learn preprocessing and metric routines the scripts call
(`SimpleImputer(strategy=mean)`, `LabelEncoder`, `StandardScaler`,
`accuracy_score`, `precision_score`, `recall_score`, `f1_score`,
`roc_auc_score`, `confusion_matrix`) are embedded by their documented
semantics, since their behaviour is what the repository's code observes.
-/

/-- A dataframe column: numeric (cells may be missing, pandas `NaN`), or
categorical/object (strings; the scripts call `.astype(str)` before
encoding, so categorical cells are total strings here). -/
inductive Col
  | num (vals : List (Option ℚ))
  | cat (vals : List String)
deriving DecidableEq, Repr

/-- Number of rows of a column. -/
def Col.length : Col → Nat
  | .num vs => vs.length
  | .cat vs => vs.length

/-- A pandas `DataFrame`: ordered named columns. -/
abbrev DataFrame := List (String × Col)

/-- The column names of a dataframe, in order (`df.columns`). -/
def colNames (df : DataFrame) : List String := df.map Prod.fst

/-- A target column (`pd.Series`): numeric, or object dtype (strings). -/
inductive TargetCol
  | num (vals : List ℚ)
  | cat (vals : List String)
deriving DecidableEq, Repr

/-- A numeric frame: named numeric columns (the state of the feature
table after categorical encoding has replaced every object column). -/
abbrev NumFrame := List (String × List (Option ℚ))

/-- A numeric matrix, column-major (list of columns). -/
abbrev Matrix' := List (List (Option ℚ))

/-- Drop the names: the `.values` of a numeric frame. -/
def matrixOf (F : NumFrame) : Matrix' := F.map Prod.snd

/-- Lexicographic strict order on strings by Unicode code point, the
order `np.unique` and `LabelEncoder` sort string labels by. -/
def strLtB : List Char → List Char → Bool
  | [], [] => false
  | [], _ :: _ => true
  | _ :: _, [] => false
  | a :: as, b :: bs =>
    if a.toNat < b.toNat then true
    else if b.toNat < a.toNat then false
    else strLtB as bs

/-- Non-strict lexicographic order on strings. -/
def strLe (a b : String) : Prop := strLtB b.data a.data = false

instance : DecidableRel strLe := fun a b =>
  inferInstanceAs (Decidable (strLtB b.data a.data = false))

/-- `np.unique` / `LabelEncoder().fit(...).classes_` on a numeric
column: the distinct values sorted ascending. -/
def npUniqueQ (l : List ℚ) : List ℚ :=
  List.insertionSort (· ≤ ·) l.dedup

/-- `np.unique` / `LabelEncoder().fit(...).classes_` on a string
column: the distinct values sorted ascending. -/
def npUnique (l : List String) : List String :=
  List.insertionSort strLe l.dedup

/-- `LabelEncoder.transform` of one value: its index in `classes_`;
scikit-learn raises on a value absent from `classes_` (`none` here). -/
def leTransform (classes : List String) (v : String) : Option ℕ :=
  if v ∈ classes then some (classes.indexOf v) else none

/-- `LabelEncoder.transform` of a whole column; fails if any value is
unseen. -/
def leTransformAll (classes : List String) (vals : List String) : Option (List ℚ) :=
  (vals.mapM (leTransform classes)).map (List.map (fun n : ℕ => (n : ℚ)))

/-- `LabelEncoder.inverse_transform` of one predicted code; scikit-learn
raises on a code outside `classes_` (`none` here).  Model predictions
arrive as numerics; a non-integral or negative code is out of range. -/
def leInverse (classes : List String) (q : ℚ) : Option String :=
  if q.den = 1 ∧ 0 ≤ q.num then classes.get? q.num.toNat else none

/-- `LabelEncoder.inverse_transform` of a whole prediction vector. -/
def leInverseAll (classes : List String) (qs : List ℚ) : Option (List String) :=
  qs.mapM (leInverse classes)

/-- `LabelEncoder().fit_transform` on a string column: classes are the
sorted distinct values; every value is present, so transform is total. -/
def leFitTransform (vals : List String) : List (Option ℚ) :=
  vals.map (fun v => some ((npUnique vals).indexOf v : ℚ))

/-- Mean of the present (non-missing) entries of a column, as used by
`SimpleImputer(strategy=mean)`.  (scikit-learn drops an all-missing
column; inputs in this development always have a present entry per
imputed column, so the `0` default of empty division is never reached
by any theorem below.) -/
def colMean (vs : List (Option ℚ)) : ℚ :=
  let present := vs.filterMap id
  if present.length = 0 then 0 else present.sum / (present.length : ℚ)

/-- The fitted state a `StandardScaler` keeps per column.  scikit-learn
stores `mean_` and `scale_ = sqrt(var_)`; a square root is not rational,
so the embedding stores the population variance and divides by it.  Per
column this is still an affine bijection fixed by the fitted state, and
no claim below depends on the scaled magnitudes, only on which state is
used. -/
structure Scaler where
  mean : List ℚ
  var : List ℚ
deriving DecidableEq, Repr

/-- Population variance of the present entries of a column
(`StandardScaler` uses `ddof = 0`). -/
def colVar (vs : List (Option ℚ)) : ℚ :=
  let present := vs.filterMap id
  if present.length = 0 then 0 else
    (present.map (fun x => (x - colMean vs) ^ 2)).sum / (present.length : ℚ)

/-- `StandardScaler().fit` on a numeric frame. -/
def scalerFit (F : NumFrame) : Scaler :=
  { mean := F.map (fun c => colMean c.2), var := F.map (fun c => colVar c.2) }

/-- Division used by `StandardScaler.transform`: a zero-variance column
is scaled by 1 (scikit-learn's `_handle_zeros_in_scale`). -/
def scaleDiv (x v : ℚ) : ℚ := if v = 0 then x else x / v

/-- `StandardScaler.transform` on a numeric frame: per column, subtract
the stored mean and divide by the stored scale; a missing cell stays
missing (`NaN` propagates). -/
def scalerTransform (sc : Scaler) (F : NumFrame) : NumFrame :=
  (F.zip (sc.mean.zip sc.var)).map
    (fun p => (p.1.1, p.1.2.map (fun c => c.map (fun x => scaleDiv (x - p.2.1) p.2.2))))

/-- A fitted model, opaque: `predictFn` is `model.predict` on a
column-major matrix; `probaFn` is `some f` when the model has a
`predict_proba` attribute, where `f` returns `none` when the call
raises; `importanceCap` records which importance attribute the model
exposes. -/
inductive ImportanceCap
  | native (ws : List ℚ)            -- `feature_importances_`
  | coef2 (rows : List (List ℚ))    -- `coef_` with a 2-D shape
  | coef1 (cs : List ℚ)             -- `coef_` with a 1-D shape
  | nocap                           -- neither attribute
deriving DecidableEq, Repr

/-- Output of `predict_proba`: `ncols` is the second component of the
numpy shape, `rows` the per-row class-probability vectors. -/
structure ProbaOut where
  ncols : ℕ
  rows : List (List ℚ)
deriving DecidableEq, Repr

structure Model where
  predictFn : Matrix' → List ℚ
  probaFn : Option (Matrix' → Option ProbaOut)
  importanceCap : ImportanceCap

/-- The mutable attributes of an `MLTrainer` instance.  `label_encoder`
is the fitted target encoder, carried as its `classes_` list. -/
structure TrainerState where
  algorithm : String
  problem_type : String
  hyperparameters : List (String × ℚ)
  model : Option Model
  scaler : Option Scaler
  label_encoder : Option (List String)
  feature_names : List String

/-- `X.isnull().any().any()`: some cell of some column is missing. -/
def anyMissing (df : DataFrame) : Bool :=
  df.any (fun c => match c.2 with
    | .num vs => vs.any (·.isNone)
    | .cat _ => false)

/-- The missing-value step of `_preprocess_data`: when any cell is
missing, a **fresh** `SimpleImputer(strategy=mean)` is fitted on the
given frame (whether or not this is the training call) and applied to
every column; a mean imputer meeting an object column raises. -/
def imputeStep (df : DataFrame) : Except String DataFrame :=
  if anyMissing df then
    if df.any (fun c => match c.2 with | .cat _ => true | .num _ => false) then
      .error "could not convert string to float"
    else
      .ok (df.map (fun c => match c.2 with
        | .num vs => (c.1, Col.num (vs.map (fun v => some (v.getD (colMean vs)))))
        | .cat vs => (c.1, Col.cat vs)))
  else .ok df

/-- The categorical-encoding step of `_preprocess_data`: for every
object column a **fresh** `LabelEncoder` is fitted on that column of the
given frame (whether or not this is the training call) and applied;
numeric columns pass through. -/
def encodeStep (df : DataFrame) : NumFrame :=
  df.map (fun c => match c.2 with
    | .num vs => (c.1, vs)
    | .cat vs => (c.1, leFitTransform vs))

/-- Algorithms for which `_preprocess_data` scales the features. -/
def scalingAlgorithms : List String := ["logistic_regression", "knn"]

/-- The scaling step of `_preprocess_data`: only for
`logistic_regression` and `knn`; the training call fits and stores a
new `StandardScaler`, the non-training call applies the stored one
(`self.scaler.transform`, an attribute error when no scaler is
stored). -/
def scaleStep (s : TrainerState) (F : NumFrame) (isTraining : Bool) :
    Except String (TrainerState × NumFrame) :=
  if s.algorithm ∈ scalingAlgorithms then
    if isTraining then
      let sc := scalerFit F
      .ok ({ s with scaler := some sc }, scalerTransform sc F)
    else
      match s.scaler with
      | none => .error "NoneType object has no attribute transform"
      | some sc => .ok (s, scalerTransform sc F)
  else .ok (s, F)

/-- The target step of `_preprocess_data`: only in the classification
branch and only for an object-dtype target; the training call fits and
stores a new target `LabelEncoder`, the non-training call applies the
stored one (raising on an unseen label, or when no encoder is
stored). -/
def targetStep (s : TrainerState) (y : TargetCol) (isTraining : Bool) :
    Except String (TrainerState × TargetCol) :=
  if s.problem_type = "classification" then
    match y with
    | .cat vals =>
      if isTraining then
        let classes := npUnique vals
        .ok ({ s with label_encoder := some classes },
             .num (vals.map (fun v => (classes.indexOf v : ℚ))))
      else
        match s.label_encoder with
        | none => .error "NoneType object has no attribute transform"
        | some classes =>
          match leTransformAll classes vals with
          | none => .error "y contains previously unseen labels"
          | some codes => .ok (s, .num codes)
    | .num vals => .ok (s, .num vals)
  else .ok (s, y)

instance {e a : Type} [DecidableEq e] [DecidableEq a] : DecidableEq (Except e a) := fun x y =>
  match x, y with
  | .error u, .error v =>
    if h : u = v then isTrue (by rw [h]) else isFalse (fun hc => h (by injection hc))
  | .ok u, .ok v =>
    if h : u = v then isTrue (by rw [h]) else isFalse (fun hc => h (by injection hc))
  | .error _, .ok _ => isFalse (fun hc => Except.noConfusion hc)
  | .ok _, .error _ => isFalse (fun hc => Except.noConfusion hc)

/-- `MLTrainer._preprocess_data`.  Returns the state after the call
(Python mutates `self`) alongside the processed feature matrix and
target.  The training call stores `feature_names` first; imputation and
categorical encoding use locally fitted parameters on every call;
scaling and target encoding branch on `is_training`. -/
def preprocessData (s : TrainerState) (X : DataFrame) (y : TargetCol)
    (isTraining : Bool) : TrainerState × Except String (Matrix' × TargetCol) :=
  let s1 := if isTraining then { s with feature_names := colNames X } else s
  match imputeStep X with
  | .error e => (s1, .error e)
  | .ok X1 =>
    let X2 := encodeStep X1
    match scaleStep s1 X2 isTraining with
    | .error e => (s1, .error e)
    | .ok (s2, X3) =>
      match targetStep s2 y isTraining with
      | .error e => (s2, .error e)
      | .ok (s3, yOut) => (s3, .ok (matrixOf X3, yOut))

/-- `MLTrainer.CLASSIFICATION_ALGORITHMS`: algorithm id → model class. -/
def CLASSIFICATION_ALGORITHMS : List (String × String) :=
  [("logistic_regression", "LogisticRegression"),
   ("random_forest", "RandomForestClassifier"),
   ("gradient_boosting", "GradientBoostingClassifier"),
   ("knn", "KNeighborsClassifier")]

/-- `MLTrainer.REGRESSION_ALGORITHMS`: algorithm id → model class. -/
def REGRESSION_ALGORITHMS : List (String × String) :=
  [("linear_regression", "LinearRegression"),
   ("random_forest", "RandomForestRegressor"),
   ("gradient_boosting", "GradientBoostingRegressor"),
   ("knn", "KNeighborsRegressor")]

/-- `MLTrainer._get_model_class`: the classification table is consulted
when `problem_type == 'classification'`; **any** other problem type
falls into the `else` branch and consults the regression table
(`dict.get` returns `None`, i.e. `none`, on a missing key). -/
def getModelClass (s : TrainerState) : Option String :=
  if s.problem_type = "classification" then
    CLASSIFICATION_ALGORITHMS.lookup s.algorithm
  else
    REGRESSION_ALGORITHMS.lookup s.algorithm

/-- `accuracy_score`: fraction of positions where prediction equals
truth. -/
def accuracyScore (yTrue yPred : List ℚ) : ℚ :=
  if yTrue.length = 0 then 0
  else ((yTrue.zip yPred).countP (fun p => p.1 = p.2) : ℚ) / (yTrue.length : ℚ)

/-- Division with `sklearn`'s `zero_division=0` convention. -/
def safeDiv (a b : ℚ) : ℚ := if b = 0 then 0 else a / b

/-- True positives for label `l`. -/
def tpOf (yTrue yPred : List ℚ) (l : ℚ) : ℕ :=
  (yTrue.zip yPred).countP (fun p => p.1 = l ∧ p.2 = l)

/-- False positives for label `l`. -/
def fpOf (yTrue yPred : List ℚ) (l : ℚ) : ℕ :=
  (yTrue.zip yPred).countP (fun p => p.1 ≠ l ∧ p.2 = l)

/-- False negatives for label `l`. -/
def fnOf (yTrue yPred : List ℚ) (l : ℚ) : ℕ :=
  (yTrue.zip yPred).countP (fun p => p.1 = l ∧ p.2 ≠ l)

/-- `precision_score(..., average='binary', zero_division=0)` with the
default `pos_label=1` (the binary branch is reached with label-encoded
classes `{0, 1}`). -/
def precisionBinary (yTrue yPred : List ℚ) : ℚ :=
  safeDiv (tpOf yTrue yPred 1 : ℚ) ((tpOf yTrue yPred 1 : ℚ) + (fpOf yTrue yPred 1 : ℚ))

/-- `recall_score(..., average='binary', zero_division=0)`. -/
def recallBinary (yTrue yPred : List ℚ) : ℚ :=
  safeDiv (tpOf yTrue yPred 1 : ℚ) ((tpOf yTrue yPred 1 : ℚ) + (fnOf yTrue yPred 1 : ℚ))

/-- `f1_score(..., average='binary', zero_division=0)`:
`2·tp / (2·tp + fp + fn)`, `0` when the denominator vanishes (this
equals `2PR/(P+R)` with the `zero_division=0` convention). -/
def f1Binary (yTrue yPred : List ℚ) : ℚ :=
  safeDiv (2 * (tpOf yTrue yPred 1 : ℚ))
    (2 * (tpOf yTrue yPred 1 : ℚ) + (fpOf yTrue yPred 1 : ℚ) + (fnOf yTrue yPred 1 : ℚ))

/-- Per-label precision, `zero_division=0`. -/
def precisionOf (yTrue yPred : List ℚ) (l : ℚ) : ℚ :=
  safeDiv (tpOf yTrue yPred l : ℚ) ((tpOf yTrue yPred l : ℚ) + (fpOf yTrue yPred l : ℚ))

/-- Per-label recall, `zero_division=0`. -/
def recallOf (yTrue yPred : List ℚ) (l : ℚ) : ℚ :=
  safeDiv (tpOf yTrue yPred l : ℚ) ((tpOf yTrue yPred l : ℚ) + (fnOf yTrue yPred l : ℚ))

/-- Per-label F1, `zero_division=0`. -/
def f1Of (yTrue yPred : List ℚ) (l : ℚ) : ℚ :=
  safeDiv (2 * (tpOf yTrue yPred l : ℚ))
    (2 * (tpOf yTrue yPred l : ℚ) + (fpOf yTrue yPred l : ℚ) + (fnOf yTrue yPred l : ℚ))

/-- Support of label `l`: its count in the true labels. -/
def supportOf (yTrue : List ℚ) (l : ℚ) : ℕ := yTrue.count l

/-- `average='weighted'`: support-weighted mean of a per-label score
over the sorted distinct labels of `y_true ∪ y_pred`. -/
def weightedAvg (yTrue yPred : List ℚ) (score : List ℚ → List ℚ → ℚ → ℚ) : ℚ :=
  let labels := npUniqueQ (yTrue ++ yPred)
  safeDiv ((labels.map (fun l => (supportOf yTrue l : ℚ) * score yTrue yPred l)).sum)
    ((labels.map (fun l => (supportOf yTrue l : ℚ))).sum)

/-- `precision_score(..., average='weighted', zero_division=0)`. -/
def precisionWeighted (yTrue yPred : List ℚ) : ℚ := weightedAvg yTrue yPred precisionOf

/-- `recall_score(..., average='weighted', zero_division=0)`. -/
def recallWeighted (yTrue yPred : List ℚ) : ℚ := weightedAvg yTrue yPred recallOf

/-- `f1_score(..., average='weighted', zero_division=0)`. -/
def f1Weighted (yTrue yPred : List ℚ) : ℚ := weightedAvg yTrue yPred f1Of

/-- `sklearn.metrics.confusion_matrix(y_true, y_pred)`: a square count
matrix over the sorted distinct labels of `y_true ∪ y_pred`; entry
`(i, j)` counts samples with true label `labels[i]` and predicted label
`labels[j]`. -/
def confusionMatrixOf (yTrue yPred : List ℚ) : List (List ℕ) :=
  let labels := npUniqueQ (yTrue ++ yPred)
  labels.map (fun a => labels.map (fun b =>
    (yTrue.zip yPred).countP (fun p => p.1 = a ∧ p.2 = b)))

/-- `roc_auc_score(y_true, y_prob)` for the binary case the code can
reach: the Mann-Whitney statistic (ties count one half).  scikit-learn
raises unless the two label values are `0` and `1` (or the pos label is
given); a raise inside the metric `try` block yields `none`. -/
def rocAucScoreQ (yTrue yScore : List ℚ) : Option ℚ :=
  if npUniqueQ yTrue = [0, 1] then
    let pairs := yTrue.zip yScore
    let pos := pairs.filter (fun p => p.1 = 1)
    let neg := pairs.filter (fun p => p.1 = 0)
    some (safeDiv
      ((pos.map (fun p => ((neg.countP (fun q => q.2 < p.2) : ℚ)
        + (neg.countP (fun q => q.2 = p.2) : ℚ) / 2))).sum)
      ((pos.length : ℚ) * (neg.length : ℚ)))
  else none

/-- Column `1` of a `predict_proba` result (`[:, 1]`). -/
def probaColumn1 (P : ProbaOut) : List ℚ := P.rows.map (fun r => r.getD 1 0)

/-- The `try` block of the ROC-AUC computation: call `predict_proba` on
the test matrix and score its column 1; any raise gives `none` (the
`except` arm stores `None` and the run continues). -/
def rocAucTry (yTrue : List ℚ) (m : Model) (Xtest : Matrix') : Option ℚ :=
  match m.probaFn with
  | none => none
  | some pf =>
    match pf Xtest with
    | none => none
    | some P => rocAucScoreQ yTrue (probaColumn1 P)

/-- The classification metrics record built by `_calculate_metrics`. -/
structure ClsMetrics where
  accuracy : ℚ
  precision : ℚ
  «recall» : ℚ
  f1_score : ℚ
  roc_auc : Option ℚ
  confusion_matrix : List (List ℕ)
deriving DecidableEq, Repr

/-- The regression metrics record built by `_calculate_metrics`.
`rmse` in the code is `sqrt(mean_squared_error(...))`; a square root is
not rational, so the embedding records the mean squared error itself
(`rmse` is its square root; no claim below concerns it). -/
structure RegMetrics where
  mse : ℚ
  mae : ℚ
  r2 : ℚ
deriving DecidableEq, Repr

inductive MetricsR
  | cls (m : ClsMetrics)
  | reg (m : RegMetrics)
deriving DecidableEq, Repr

/-- The classification branch of `MLTrainer._calculate_metrics`:
binary averaging exactly when `len(np.unique(y_true)) == 2`, weighted
otherwise, all with `zero_division=0`; ROC-AUC attempted only for two
classes and a model with a `predict_proba` attribute, `None` otherwise
or on failure; confusion matrix as `confusion_matrix(y_true, y_pred)`. -/
def calculateMetricsCls (yTrue yPred : List ℚ) (m : Model) (Xtest : Matrix') : ClsMetrics :=
  let nClasses := (npUniqueQ yTrue).length
  { accuracy := accuracyScore yTrue yPred
    precision := if nClasses = 2 then precisionBinary yTrue yPred else precisionWeighted yTrue yPred
    «recall» := if nClasses = 2 then recallBinary yTrue yPred else recallWeighted yTrue yPred
    f1_score := if nClasses = 2 then f1Binary yTrue yPred else f1Weighted yTrue yPred
    roc_auc := if nClasses = 2 ∧ m.probaFn.isSome then rocAucTry yTrue m Xtest else none
    confusion_matrix := confusionMatrixOf yTrue yPred }

/-- Mean of a list of rationals (`np.mean`, denominator `0` never
reached by the theorems below). -/
def listMean (l : List ℚ) : ℚ := safeDiv l.sum (l.length : ℚ)

/-- The regression branch of `MLTrainer._calculate_metrics`. -/
def calculateMetricsReg (yTrue yPred : List ℚ) : RegMetrics :=
  { mse := listMean ((yTrue.zip yPred).map (fun p => (p.1 - p.2) ^ 2))
    mae := listMean ((yTrue.zip yPred).map (fun p => |p.1 - p.2|))
    r2 := 1 - safeDiv ((yTrue.zip yPred).map (fun p => (p.1 - p.2) ^ 2)).sum
      ((yTrue.map (fun v => (v - listMean yTrue) ^ 2)).sum) }

/-- `MLTrainer._calculate_metrics`: dispatch on `problem_type`.  The
numpy metric calls require numeric arrays; a string-valued target (only
possible outside the classification branch) is out of the embedded
domain and reported as an error. -/
def calculateMetrics (s : TrainerState) (yTrue : TargetCol) (yPred : List ℚ)
    (m : Model) (Xtest : Matrix') : Except String MetricsR :=
  match yTrue with
  | .cat _ => .error "non-numeric target in metrics"
  | .num yt =>
    if s.problem_type = "classification" then
      .ok (.cls (calculateMetricsCls yt yPred m Xtest))
    else
      .ok (.reg (calculateMetricsReg yt yPred))

/-- One `{'feature': ..., 'importance': ...}` record. -/
structure FI where
  feature : String
  importance : ℚ
deriving DecidableEq, Repr

/-- `importance_list.sort(key=lambda x: x['importance'], reverse=True)`:
stable sort, descending by importance. -/
def sortByImportanceDesc (l : List FI) : List FI :=
  List.insertionSort (fun a b => b.importance ≤ a.importance) l

/-- Columnwise mean of the absolute values of a 2-D `coef_`
(`np.abs(coef_).mean(axis=0)`); numpy arrays are rectangular, so all
rows have the same length. -/
def absMeanCols (rows : List (List ℚ)) : List ℚ :=
  rows.transpose.map (fun col => listMean (col.map (fun x => |x|)))

/-- `MLTrainer._get_feature_importance`: native importances first, then
coefficients (2-D: mean absolute value across classes; 1-D: absolute
value), else an empty list; each value is paired with the feature name
at the same position and the result is sorted descending.  With no
model stored, `hasattr(None, ...)` is false and the list is empty. -/
def getFeatureImportance (s : TrainerState) : List FI :=
  match s.model with
  | none => []
  | some m =>
    match m.importanceCap with
    | .native ws => sortByImportanceDesc ((s.feature_names.zip ws).map (fun p => ⟨p.1, p.2⟩))
    | .coef2 rows => sortByImportanceDesc
        ((s.feature_names.zip (absMeanCols rows)).map (fun p => ⟨p.1, p.2⟩))
    | .coef1 cs => sortByImportanceDesc
        ((s.feature_names.zip (cs.map (fun x => |x|))).map (fun p => ⟨p.1, p.2⟩))
    | .nocap => []

/-- The result record of `MLTrainer.train` (training duration is
wall-clock time, outside the embedded domain). -/
structure TrainResult where
  metrics : MetricsR
  feature_importance : List FI
deriving DecidableEq

/-- `MLTrainer.train`.  `fit` is the opaque model-fitting collaborator:
given the looked-up model class, the hyperparameters, and the processed
training data, it returns the fitted model
(`model_class(**hyperparameters).fit(X, y)`).  The state is returned
alongside the result because the Python method mutates `self`: note the
registry check happens only **after** both preprocessing calls. -/
def train (fit : String → List (String × ℚ) → Matrix' → TargetCol → Model)
    (s : TrainerState) (XTrain XTest : DataFrame) (yTrain yTest : TargetCol) :
    TrainerState × Except String TrainResult :=
  match preprocessData s XTrain yTrain true with
  | (s1, .error e) => (s1, .error e)
  | (s1, .ok (XTrainP, yTrainP)) =>
    match preprocessData s1 XTest yTest false with
    | (s2, .error e) => (s2, .error e)
    | (s2, .ok (XTestP, yTestP)) =>
      match getModelClass s2 with
      | none => (s2, .error ("Unknown algorithm: " ++ s2.algorithm))
      | some cls =>
        let m := fit cls s2.hyperparameters XTrainP yTrainP
        let s3 := { s2 with model := some m }
        let yPred := m.predictFn XTestP
        match calculateMetrics s3 yTestP yPred m XTestP with
        | .error e => (s3, .error e)
        | .ok mets =>
          (s3, .ok { metrics := mets, feature_importance := getFeatureImportance s3 })

/-- The serialized bundle of `MLTrainer.save_model` (`joblib.dump` and
`joblib.load` are the identity on this in-memory value). -/
structure ModelBundle where
  model : Model
  scaler : Option Scaler
  label_encoder : Option (List String)
  feature_names : List String
  algorithm : String
  problem_type : String

/-- `MLTrainer.save_model`: raises when no model was trained, else
bundles the six fields. -/
def saveModel (s : TrainerState) : Except String ModelBundle :=
  match s.model with
  | none => .error "No model to save. Train a model first."
  | some m =>
    .ok { model := m, scaler := s.scaler, label_encoder := s.label_encoder,
          feature_names := s.feature_names, algorithm := s.algorithm,
          problem_type := s.problem_type }

/-- `MLTrainer.load_model`: a fresh trainer with empty hyperparameters
carrying the bundled model, scaler, label encoder and feature names. -/
def loadModel (b : ModelBundle) : TrainerState :=
  { algorithm := b.algorithm, problem_type := b.problem_type,
    hyperparameters := [], model := some b.model, scaler := b.scaler,
    label_encoder := b.label_encoder, feature_names := b.feature_names }

/-- The `main` flow of `ml_trainer.py` after the split: train, then save
the artifact only when training succeeded. -/
def trainAndSave (fit : String → List (String × ℚ) → Matrix' → TargetCol → Model)
    (s : TrainerState) (XTrain XTest : DataFrame) (yTrain yTest : TargetCol) :
    Except String (TrainResult × ModelBundle) :=
  match train fit s XTrain XTest yTrain yTest with
  | (_, .error e) => .error e
  | (s', .ok r) =>
    match saveModel s' with
    | .error e => .error e
    | .ok b => .ok (r, b)

/-- The error taxonomy observable from `predictor.predict`: the missing
feature validation error carries the enumerated missing names; every
other raise is a plain failure message. -/
inductive PredictError
  | missingFeatures (names : List String)
  | failure (msg : String)
deriving DecidableEq, Repr

/-- `set(trainer.feature_names) - set(df.columns)` as the list of
feature names absent from the input, in feature order. -/
def missingFeaturesOf (t : TrainerState) (df : DataFrame) : List String :=
  t.feature_names.filter (fun f => f ∉ colNames df)

/-- Column lookup with a default; only used after the missing-feature
validation has passed, so the default is never reached there. -/
def lookupCol (df : DataFrame) (f : String) : Col :=
  (df.lookup f).getD (Col.num [])

/-- `X = df[trainer.feature_names]`: select and reorder the feature
columns. -/
def selectFeatures (t : TrainerState) (df : DataFrame) : DataFrame :=
  t.feature_names.map (fun f => (f, lookupCol df f))

/-- The inference-time preprocessing of `predictor.predict`: a **fresh**
`LabelEncoder` is fitted per object column of the given input (training
encodings are not reused — there is no imputation step at all), then the
artifact's scaler, when present, is applied in transform mode. -/
def inferenceFrame (t : TrainerState) (df : DataFrame) : NumFrame :=
  let X := encodeStep (selectFeatures t df)
  match t.scaler with
  | none => X
  | some sc => scalerTransform sc X

/-- The matrix handed to `trainer.model.predict` at inference time. -/
def inferenceMatrix (t : TrainerState) (df : DataFrame) : Matrix' :=
  matrixOf (inferenceFrame t df)

/-- pandas column assignment `df[name] = vals`: replaces the column in
place when the name exists, else appends it on the right. -/
def setCol (df : DataFrame) (name : String) (c : Col) : DataFrame :=
  if name ∈ colNames df then
    df.map (fun p => if p.1 = name then (name, c) else p)
  else df ++ [(name, c)]

/-- Maximum of a probability row (`probabilities.max(axis=1)`); numpy
rows here are nonempty, the default is never reached below. -/
def rowMax (r : List ℚ) : ℚ := r.foldr max (r.headD 0)

/-- Column `0` of a `predict_proba` result. -/
def probaColumn0 (P : ProbaOut) : List ℚ := P.rows.map (fun r => r.getD 0 0)

/-- `predictor.predict`, from the loaded trainer to the output frame
that is written to CSV.  Steps, in source order: validate that every
`feature_names` entry is an input column (error enumerating the missing
names, before anything else happens); select/reorder the feature
columns; re-fit-and-apply categorical encoders; apply the stored scaler
if any; `model.predict`; when the model has `predict_proba`, call it (a
raise here is caught only by the outer handler, failing the whole run)
and, for a classification artifact with a stored target encoder, decode
the predictions — **the decode step is nested inside the
`predict_proba` branch**; copy the input frame and assign the
`prediction` column, plus `confidence` and, for a two-column
probability matrix, both class-probability columns. -/
def predictCore (t : TrainerState) (df : DataFrame) : Except PredictError DataFrame :=
  let missing := missingFeaturesOf t df
  if missing ≠ [] then .error (.missingFeatures missing)
  else
    let X := inferenceMatrix t df
    match t.model with
    | none => .error (.failure "NoneType object has no attribute predict")
    | some m =>
      let predictions := m.predictFn X
      match m.probaFn with
      | none =>
        .ok (setCol df "prediction" (Col.num (predictions.map some)))
      | some pf =>
        match pf X with
        | none => .error (.failure "predict_proba raised")
        | some P =>
          let decoded : Except PredictError Col :=
            if t.problem_type = "classification" ∧ t.label_encoder.isSome then
              match leInverseAll (t.label_encoder.getD []) predictions with
              | none => .error (.failure "inverse_transform: unseen labels")
              | some labels => .ok (Col.cat labels)
            else .ok (Col.num (predictions.map some))
          match decoded with
          | .error e => .error e
          | .ok predCol =>
            let out1 := setCol df "prediction" predCol
            let out2 := setCol out1 "confidence" (Col.num (P.rows.map (fun r => some (rowMax r))))
            let out3 :=
              if P.ncols = 2 then
                setCol (setCol out2 "probability_class_0"
                    (Col.num ((probaColumn0 P).map some)))
                  "probability_class_1" (Col.num ((probaColumn1 P).map some))
              else out2
            .ok out3

/-- `predictor.predict` on a saved artifact: load, then run. -/
def predictRun (b : ModelBundle) (df : DataFrame) : Except PredictError DataFrame :=
  predictCore (loadModel b) df

/-! ## Theorems -/

lemma scaleStep_false_state (s : TrainerState) (F : NumFrame) (p : TrainerState × NumFrame)
    (h : scaleStep s F false = .ok p) : p.1 = s := by
  unfold scaleStep at h
  split at h
  · split at h
    · simp at *
    · split at h
      · exact absurd h (by simp)
      · simp only [Except.ok.injEq] at h
        subst h; rfl
  · simp only [Except.ok.injEq] at h
    subst h; rfl

lemma targetStep_false_state (s : TrainerState) (y : TargetCol) (p : TrainerState × TargetCol)
    (h : targetStep s y false = .ok p) : p.1 = s := by
  unfold targetStep at h
  split at h
  · split at h
    · split at h
      · simp at *
      · split at h
        · exact absurd h (by simp)
        · split at h
          · exact absurd h (by simp)
          · simp only [Except.ok.injEq] at h
            subst h; rfl
    · simp only [Except.ok.injEq] at h
      subst h; rfl
  · simp only [Except.ok.injEq] at h
    subst h; rfl

/-- A trained state used to probe transform-only behaviour: feature
names, a stored target encoder, no scaler (tree algorithm). -/
def c1State : TrainerState :=
  { algorithm := "random_forest", problem_type := "classification",
    hyperparameters := [], model := none, scaler := none,
    label_encoder := some ["a", "b"], feature_names := ["c"] }

/-- C1 counterexample.  The claim says non-training preprocessing
applies only stored state.  With the same stored state `c1State`, the
same categorical cell value `"b"` in row 0 is encoded as `1` against
companion rows `["b", "a"]` but as `0` against `["b", "c"]`: the
encoding table is re-fitted from the given input on every call, not
reused from the training fit.  Likewise a missing numeric cell is
imputed with the mean of the **given** input (`10` here), not with any
training-split statistic: no imputation value is stored at all. -/
theorem c1_refit_counterexample :
    (preprocessData c1State [("c", Col.cat ["b", "a"])] (.num [0, 0]) false).2
      = .ok ([[some 1, some 0]], .num [0, 0]) ∧
    (preprocessData c1State [("c", Col.cat ["b", "c"])] (.num [0, 0]) false).2
      = .ok ([[some 0, some 1]], .num [0, 0]) ∧
    (preprocessData c1State [("c", Col.num [some 10, none])] (.num [0, 0]) false).2
      = .ok ([[some 10, some 10]], .num [0, 0]) := by
  refine ⟨by decide, by decide, ?_⟩
  norm_num [preprocessData, imputeStep, anyMissing, encodeStep, scaleStep, targetStep,
    scalingAlgorithms, matrixOf, colMean, colNames, c1State, List.filterMap]
  decide

/-- C1 (amended): a non-training call of `_preprocess_data` leaves the
trainer's stored preprocessing state (feature names, scaler, target
label encoder, model) entirely unaltered, whether it succeeds or
fails; the stored scaler and stored target encoder are the only fitted
parameters it reuses, while imputation values and categorical feature
encodings are re-derived from the given input (see the
counterexample). -/
theorem c1_transform_only_state_unaltered (s : TrainerState) (X : DataFrame)
    (y : TargetCol) : (preprocessData s X y false).1 = s := by
  unfold preprocessData
  simp only [Bool.false_eq_true, if_false]
  cases h1 : imputeStep X with
  | error e => rfl
  | ok X1 =>
    dsimp only
    cases h2 : scaleStep s (encodeStep X1) false with
    | error e => rfl
    | ok p =>
      obtain ⟨s2, X3⟩ := p
      have hs := scaleStep_false_state _ _ _ h2
      dsimp only
      cases h3 : targetStep s2 y false with
      | error e => exact hs
      | ok q =>
        obtain ⟨s3, yOut⟩ := q
        have ht := targetStep_false_state _ _ _ h3
        exact ht.trans hs

lemma scaleStep_fields (s : TrainerState) (F : NumFrame) (b : Bool)
    (p : TrainerState × NumFrame) (h : scaleStep s F b = .ok p) :
    p.1.algorithm = s.algorithm ∧ p.1.problem_type = s.problem_type ∧
    p.1.model = s.model ∧ p.1.feature_names = s.feature_names ∧
    p.1.label_encoder = s.label_encoder := by
  unfold scaleStep at h
  split at h
  · split at h
    · simp only [Except.ok.injEq] at h
      subst h; exact ⟨rfl, rfl, rfl, rfl, rfl⟩
    · split at h
      · exact absurd h (by simp)
      · simp only [Except.ok.injEq] at h
        subst h; exact ⟨rfl, rfl, rfl, rfl, rfl⟩
  · simp only [Except.ok.injEq] at h
    subst h; exact ⟨rfl, rfl, rfl, rfl, rfl⟩

lemma targetStep_fields (s : TrainerState) (y : TargetCol) (b : Bool)
    (p : TrainerState × TargetCol) (h : targetStep s y b = .ok p) :
    p.1.algorithm = s.algorithm ∧ p.1.problem_type = s.problem_type ∧
    p.1.model = s.model ∧ p.1.feature_names = s.feature_names ∧
    p.1.scaler = s.scaler := by
  unfold targetStep at h
  split at h
  · split at h
    · split at h
      · simp only [Except.ok.injEq] at h
        subst h; exact ⟨rfl, rfl, rfl, rfl, rfl⟩
      · split at h
        · exact absurd h (by simp)
        · split at h
          · exact absurd h (by simp)
          · simp only [Except.ok.injEq] at h
            subst h; exact ⟨rfl, rfl, rfl, rfl, rfl⟩
    · simp only [Except.ok.injEq] at h
      subst h; exact ⟨rfl, rfl, rfl, rfl, rfl⟩
  · simp only [Except.ok.injEq] at h
    subst h; exact ⟨rfl, rfl, rfl, rfl, rfl⟩

/-- `_preprocess_data` never touches `algorithm`, `problem_type` or
`model`, in either mode, on any path. -/
lemma preprocessData_fields (s : TrainerState) (X : DataFrame) (y : TargetCol) (b : Bool) :
    (preprocessData s X y b).1.algorithm = s.algorithm ∧
    (preprocessData s X y b).1.problem_type = s.problem_type ∧
    (preprocessData s X y b).1.model = s.model := by
  unfold preprocessData
  have hs1 : ∀ s1 : TrainerState,
      s1 = (if b then { s with feature_names := colNames X } else s) →
      s1.algorithm = s.algorithm ∧ s1.problem_type = s.problem_type ∧
      s1.model = s.model := by
    intro s1 h
    cases b <;> simp at h <;> subst h <;> exact ⟨rfl, rfl, rfl⟩
  obtain ⟨ha, hp, hm⟩ := hs1 _ rfl
  cases h1 : imputeStep X with
  | error e => exact ⟨ha, hp, hm⟩
  | ok X1 =>
    dsimp only
    cases h2 : scaleStep (if b then { s with feature_names := colNames X } else s)
        (encodeStep X1) b with
    | error e => exact ⟨ha, hp, hm⟩
    | ok p =>
      obtain ⟨s2, X3⟩ := p
      obtain ⟨ha2, hp2, hm2, _, _⟩ := scaleStep_fields _ _ _ _ h2
      dsimp only
      cases h3 : targetStep s2 y b with
      | error e => exact ⟨ha2.trans ha, hp2.trans hp, hm2.trans hm⟩
      | ok q =>
        obtain ⟨s3, yOut⟩ := q
        obtain ⟨ha3, hp3, hm3, _, _⟩ := targetStep_fields _ _ _ _ h3
        exact ⟨(ha3.trans ha2).trans ha, (hp3.trans hp2).trans hp,
          (hm3.trans hm2).trans hm⟩

/-- With a registry miss, `train` always lands in the
`Unknown algorithm` raise or an earlier preprocessing raise: it returns
an error and a state whose `model` is untouched. -/
lemma train_unknown_aux (fit : String → List (String × ℚ) → Matrix' → TargetCol → Model)
    (s : TrainerState) (XTrain XTest : DataFrame) (yTrain yTest : TargetCol)
    (h : getModelClass s = none) :
    ∃ s' e, train fit s XTrain XTest yTrain yTest = (s', Except.error e) ∧
      s'.model = s.model := by
  unfold train
  rcases hp1 : preprocessData s XTrain yTrain true with ⟨s1, r1⟩
  have hf1 := preprocessData_fields s XTrain yTrain true
  rw [hp1] at hf1
  cases r1 with
  | error e => exact ⟨s1, e, rfl, hf1.2.2⟩
  | ok v1 =>
    obtain ⟨XTrainP, yTrainP⟩ := v1
    dsimp only
    rcases hp2 : preprocessData s1 XTest yTest false with ⟨s2, r2⟩
    have hf2 := preprocessData_fields s1 XTest yTest false
    rw [hp2] at hf2
    cases r2 with
    | error e => exact ⟨s2, e, rfl, hf2.2.2.trans hf1.2.2⟩
    | ok v2 =>
      obtain ⟨XTestP, yTestP⟩ := v2
      dsimp only
      have hgc : getModelClass s2 = none := by
        unfold getModelClass at h ⊢
        rw [hf2.2.1, hf1.2.1, hf2.1, hf1.1]
        exact h
      rw [hgc]
      exact ⟨s2, "Unknown algorithm: " ++ s2.algorithm, rfl,
        hf2.2.2.trans hf1.2.2⟩

/-- A trainer whose (problem type, algorithm) pair misses the registry:
`svm` is in neither table. -/
def c2StateSvm : TrainerState :=
  { algorithm := "svm", problem_type := "classification",
    hyperparameters := [], model := none, scaler := none,
    label_encoder := none, feature_names := [] }

/-- A trainer whose pair is **not** in the spec's two-key registry, yet
is accepted by the code: an unrecognized problem type selects the
regression table. -/
def c2StateBanana : TrainerState :=
  { algorithm := "random_forest", problem_type := "banana",
    hyperparameters := [], model := none, scaler := none,
    label_encoder := none, feature_names := [] }

/-- A degenerate opaque fitting collaborator for concrete runs. -/
def trivialFit : String → List (String × ℚ) → Matrix' → TargetCol → Model :=
  fun _ _ _ _ => { predictFn := fun _ => [], probaFn := none, importanceCap := .nocap }

/-- C2 counterexample.  The claim says a registry miss fails before any
data is preprocessed and that every absent (problem_type, algorithm)
pair fails.  Concretely: (1) training `c2StateSvm` does raise
`Unknown algorithm: svm`, but the returned trainer's `feature_names`
has already been set from the training split — both splits were
preprocessed before the registry was consulted; (2) the pair
`("banana", "random_forest")` is absent from the registry, yet `train`
succeeds, because an unrecognized problem type falls into the
regression table. -/
theorem c2_fail_fast_counterexample :
    (train trivialFit c2StateSvm [("x", Col.num [some 1])] [("x", Col.num [some 2])]
        (.num [0]) (.num [0])).2 = .error "Unknown algorithm: svm" ∧
    (train trivialFit c2StateSvm [("x", Col.num [some 1])] [("x", Col.num [some 2])]
        (.num [0]) (.num [0])).1.feature_names = ["x"] ∧
    c2StateSvm.feature_names = [] ∧
    (train trivialFit c2StateBanana [("x", Col.num [some 1])] [("x", Col.num [some 2])]
        (.num [0]) (.num [0])).2.isOk = true := by
  refine ⟨by decide, by decide, by decide, by decide⟩

/-- C2 (amended): when the algorithm is absent from the registry table
selected by `problem_type` (the classification table for
`'classification'`, the regression table for anything else), `train`
never succeeds, never stores a model, and `main`'s train-then-save flow
writes no artifact — but the failure is raised only **after** both
splits have been preprocessed (see the counterexample), and an
unrecognized `problem_type` alone is not rejected. -/
theorem c2_unknown_algorithm_no_model_no_artifact
    (fit : String → List (String × ℚ) → Matrix' → TargetCol → Model)
    (s : TrainerState) (XTrain XTest : DataFrame) (yTrain yTest : TargetCol)
    (h : getModelClass s = none) :
    (train fit s XTrain XTest yTrain yTest).2.isOk = false ∧
    (train fit s XTrain XTest yTrain yTest).1.model = s.model ∧
    (trainAndSave fit s XTrain XTest yTrain yTest).isOk = false := by
  obtain ⟨s', e, htr, hm⟩ := train_unknown_aux fit s XTrain XTest yTrain yTest h
  refine ⟨by rw [htr]; rfl, by rw [htr]; exact hm, ?_⟩
  unfold trainAndSave
  rw [htr]
  rfl

/-- Witness for the amended C2 theorem at the `svm` miss. -/
theorem c2_unknown_algorithm_witness :
    getModelClass c2StateSvm = none ∧
    (trainAndSave trivialFit c2StateSvm [("x", Col.num [some 1])]
        [("x", Col.num [some 2])] (.num [0]) (.num [0])).isOk = false :=
  ⟨by decide,
   (c2_unknown_algorithm_no_model_no_artifact trivialFit c2StateSvm
      [("x", Col.num [some 1])] [("x", Col.num [some 2])]
      (.num [0]) (.num [0]) (by decide)).2.2⟩

lemma missingFeaturesOf_colNames (t : TrainerState) (df df2 : DataFrame)
    (h : colNames df2 = colNames df) :
    missingFeaturesOf t df2 = missingFeaturesOf t df := by
  unfold missingFeaturesOf
  rw [h]

/-- C5: whenever some artifact feature name is absent from the input
table, `predict` raises the validation error first — its payload is
exactly the set of missing names (each listed name is a feature name
absent from the input, and every such name is listed) — and the outcome
depends only on the input's column names, not on any row value: no row
is processed. -/
theorem c5_missing_features_exact (t : TrainerState) (df : DataFrame)
    (h : missingFeaturesOf t df ≠ []) :
    predictCore t df = .error (.missingFeatures (missingFeaturesOf t df)) ∧
    (∀ f, f ∈ missingFeaturesOf t df ↔ (f ∈ t.feature_names ∧ f ∉ colNames df)) ∧
    (∀ df2, colNames df2 = colNames df →
      predictCore t df2 = .error (.missingFeatures (missingFeaturesOf t df))) := by
  have main : ∀ dfx : DataFrame, missingFeaturesOf t dfx ≠ [] →
      predictCore t dfx = .error (.missingFeatures (missingFeaturesOf t dfx)) := by
    intro dfx hx
    unfold predictCore
    rw [if_pos hx]
  refine ⟨main df h, ?_, ?_⟩
  · intro f
    unfold missingFeaturesOf
    simp [List.mem_filter]
  · intro df2 h2
    rw [main df2 (by rw [missingFeaturesOf_colNames t df df2 h2]; exact h),
      missingFeaturesOf_colNames t df df2 h2]

/-- An artifact state expecting features `a` and `b`. -/
def c5State : TrainerState :=
  { algorithm := "random_forest", problem_type := "classification",
    hyperparameters := [], model := none, scaler := none,
    label_encoder := none, feature_names := ["a", "b"] }

/-- Witness for C5: input has column `b` only, so the error lists
exactly `["a"]`. -/
theorem c5_missing_features_witness :
    predictCore c5State [("b", Col.num [some 1])] =
      .error (.missingFeatures ["a"]) := by
  have h := (c5_missing_features_exact c5State [("b", Col.num [some 1])] (by decide)).1
  rw [h]
  decide


lemma lookup_replace (df : DataFrame) (name : String) (c : Col)
    (h : name ∈ colNames df) :
    List.lookup name (df.map (fun p => if p.1 = name then (name, c) else p)) = some c := by
  induction df with
  | nil => simp [colNames] at h
  | cons hd tl ih =>
    obtain ⟨k, v⟩ := hd
    rw [List.map_cons]
    by_cases he : k = name
    · rw [if_pos he]
      simp [List.lookup]
    · rw [if_neg he]
      have h2 : name ∈ colNames tl := by
        rcases (by simpa [colNames] using h : name = k ∨ name ∈ colNames tl) with h3 | h3
        · exact absurd h3.symm he
        · exact h3
      rw [List.lookup]
      rw [show (name == k) = false from beq_eq_false_iff_ne.mpr (Ne.symm he)]
      exact ih h2

lemma lookup_append_self (df : DataFrame) (name : String) (c : Col)
    (h : name ∉ colNames df) :
    List.lookup name (df ++ [(name, c)]) = some c := by
  induction df with
  | nil => simp [List.lookup]
  | cons hd tl ih =>
    obtain ⟨k, v⟩ := hd
    have hk : name ≠ k := by
      intro hc
      exact h (by simp [colNames, hc])
    rw [List.cons_append, List.lookup]
    rw [show (name == k) = false from beq_eq_false_iff_ne.mpr hk]
    exact ih (fun hc => h (by simp [colNames] at hc ⊢; exact Or.inr hc))

/-- `df[name] = c` makes column `name` read back `c`. -/
lemma lookup_setCol (df : DataFrame) (name : String) (c : Col) :
    List.lookup name (setCol df name c) = some c := by
  unfold setCol
  split
  · exact lookup_replace df name c (by assumption)
  · exact lookup_append_self df name c (by assumption)

lemma lookup_map_replace_ne (df : DataFrame) (name other : String) (c : Col)
    (h : name ≠ other) :
    List.lookup name (df.map (fun p => if p.1 = other then (other, c) else p)) =
      List.lookup name df := by
  induction df with
  | nil => simp
  | cons hd tl ih =>
    obtain ⟨k, v⟩ := hd
    rw [List.map_cons]
    by_cases he : k = other
    · rw [if_pos he, List.lookup, List.lookup,
        show (name == other) = false from beq_eq_false_iff_ne.mpr h,
        show (name == k) = false from beq_eq_false_iff_ne.mpr (he ▸ h)]
      exact ih
    · rw [if_neg he, List.lookup, List.lookup]
      cases hb : (name == k) with
      | true => rfl
      | false => exact ih

lemma lookup_append_ne (df : DataFrame) (name other : String) (c : Col)
    (h : name ≠ other) :
    List.lookup name (df ++ [(other, c)]) = List.lookup name df := by
  induction df with
  | nil => simp [List.lookup, show (name == other) = false from beq_eq_false_iff_ne.mpr h]
  | cons hd tl ih =>
    obtain ⟨k, v⟩ := hd
    rw [List.cons_append, List.lookup, List.lookup]
    cases hb : (name == k) with
    | true => rfl
    | false => exact ih

/-- Assigning a differently named column leaves `df[name]` unchanged. -/
lemma lookup_setCol_ne (df : DataFrame) (name other : String) (c : Col)
    (h : name ≠ other) :
    List.lookup name (setCol df other c) = List.lookup name df := by
  unfold setCol
  split
  · exact lookup_map_replace_ne df name other c h
  · exact lookup_append_ne df name other c h

/-- C3 (amended): on every successful prediction run, the predictions
are decoded through the stored target label-encoding table **iff** the
model exposes `predict_proba` (and the artifact is a classification one
with a stored encoder): a model without probability output gets its raw
numeric predictions written to the `prediction` column undecoded, even
when an encoding table exists. -/
theorem c3_decode_iff_proba (t : TrainerState) (df : DataFrame) (m : Model)
    (hm : t.model = some m) (out : DataFrame)
    (h : predictCore t df = .ok out) :
    (m.probaFn = none →
      List.lookup "prediction" out =
        some (Col.num ((m.predictFn (inferenceMatrix t df)).map some))) ∧
    (∀ pf P cl, m.probaFn = some pf → pf (inferenceMatrix t df) = some P →
      t.problem_type = "classification" → t.label_encoder = some cl →
      ∃ dec, leInverseAll cl (m.predictFn (inferenceMatrix t df)) = some dec ∧
        List.lookup "prediction" out = some (Col.cat dec)) := by
  unfold predictCore at h
  by_cases hmiss : missingFeaturesOf t df ≠ []
  · rw [if_pos hmiss] at h; cases h
  · rw [if_neg hmiss] at h
    rw [hm] at h
    dsimp only at h
    cases hpf : m.probaFn with
    | none =>
      rw [hpf] at h
      dsimp only at h
      simp only [Except.ok.injEq] at h
      subst h
      constructor
      · intro _
        exact lookup_setCol df "prediction" _
      · intro pf P cl hpf' _ _ _
        cases hpf'
    | some pf =>
      rw [hpf] at h
      dsimp only at h
      cases hP : pf (inferenceMatrix t df) with
      | none => rw [hP] at h; cases h
      | some P =>
        rw [hP] at h
        dsimp only at h
        by_cases hcls : t.problem_type = "classification" ∧ t.label_encoder.isSome
        · rw [if_pos hcls] at h
          cases hdec : leInverseAll (t.label_encoder.getD []) (m.predictFn (inferenceMatrix t df)) with
          | none => rw [hdec] at h; cases h
          | some dec =>
            rw [hdec] at h
            dsimp only at h
            simp only [Except.ok.injEq] at h
            subst h
            constructor
            · intro hnone; cases hnone
            · intro pf' P' cl' hpf' hP' hcltype hle
              have hgd : t.label_encoder.getD [] = cl' := by rw [hle]; rfl
              rw [hgd] at hdec
              refine ⟨dec, hdec, ?_⟩
              split
              · rw [lookup_setCol_ne _ _ _ _ (by decide),
                  lookup_setCol_ne _ _ _ _ (by decide),
                  lookup_setCol_ne _ _ _ _ (by decide),
                  lookup_setCol]
              · rw [lookup_setCol_ne _ _ _ _ (by decide), lookup_setCol]
        · rw [if_neg hcls] at h
          dsimp only at h
          simp only [Except.ok.injEq] at h
          subst h
          constructor
          · intro hnone; cases hnone
          · intro pf' P' cl' hpf' hP' hcltype hle
            exact absurd ⟨hcltype, by rw [hle]; rfl⟩ hcls

/-- A classification model that exposes no `predict_proba`. -/
def c3Model : Model :=
  { predictFn := fun _ => [1], probaFn := none, importanceCap := .nocap }

/-- A loaded classification artifact with a stored target encoding
table (`0 ↦ "no"`, `1 ↦ "yes"`) whose model lacks probability
output. -/
def c3State : TrainerState :=
  { algorithm := "random_forest", problem_type := "classification",
    hyperparameters := [], model := some c3Model, scaler := none,
    label_encoder := some ["no", "yes"], feature_names := ["x"] }

def c3Input : DataFrame := [("x", Col.num [some 0])]

def c3Output : DataFrame := [("x", Col.num [some 0]), ("prediction", Col.num [some 1])]

/-- C3 counterexample.  The artifact stores a target label-encoding
table and decoding `1` through it would give `"yes"`, yet the run
writes the raw integer prediction `1` to the output: the decode step is
nested inside the `predict_proba` branch, so a model without
probability output skips it — contradicting "decoded ... regardless of
whether the model exposes probability output". -/
theorem c3_decode_counterexample :
    c3State.label_encoder = some ["no", "yes"] ∧
    leInverse ["no", "yes"] 1 = some "yes" ∧
    predictCore c3State c3Input = .ok c3Output ∧
    List.lookup "prediction" c3Output = some (Col.num [some 1]) :=
  ⟨rfl, by decide, by decide, by decide⟩

/-- Witness for the amended C3 theorem: the no-probability branch at a
concrete run. -/
theorem c3_decode_iff_proba_witness :
    List.lookup "prediction" c3Output =
      some (Col.num ((c3Model.predictFn (inferenceMatrix c3State c3Input)).map some)) :=
  (c3_decode_iff_proba c3State c3Input c3Model rfl c3Output (by decide)).1 rfl

lemma predictCore_ignores_hyperparameters (t : TrainerState) (df : DataFrame)
    (hp : List (String × ℚ)) :
    predictCore { t with hyperparameters := hp } df = predictCore t df := by
  cases t
  rfl

/-- C4: artifact round-trip.  Loading the saved bundle of a trained
trainer restores the same model, scaler, label encoder, feature names,
algorithm and problem type (everything except the hyperparameters,
which prediction never reads), and predicting with the loaded trainer
gives exactly the same result as predicting with the original on every
input — exact equality, which subsumes equality within
floating-point tolerance. -/
theorem c4_artifact_roundtrip (t : TrainerState) (b : ModelBundle)
    (h : saveModel t = .ok b) :
    loadModel b = { t with hyperparameters := [] } ∧
    (loadModel b).model = t.model ∧ (loadModel b).scaler = t.scaler ∧
    (loadModel b).label_encoder = t.label_encoder ∧
    (loadModel b).feature_names = t.feature_names ∧
    (loadModel b).algorithm = t.algorithm ∧
    (loadModel b).problem_type = t.problem_type ∧
    ∀ df, predictCore (loadModel b) df = predictCore t df := by
  have hload : loadModel b = { t with hyperparameters := [] } := by
    unfold saveModel at h
    cases hm : t.model with
    | none => rw [hm] at h; cases h
    | some m =>
      rw [hm] at h
      simp only [Except.ok.injEq] at h
      subst h
      unfold loadModel
      cases t
      simp only at hm
      simp [hm]
  refine ⟨hload, by rw [hload], by rw [hload], by rw [hload], by rw [hload],
    by rw [hload], by rw [hload], fun df => ?_⟩
  rw [hload, predictCore_ignores_hyperparameters]

/-- A trained regression trainer and the bundle its `save_model`
produces. -/
def c4Model : Model :=
  { predictFn := fun _ => [0], probaFn := none, importanceCap := .nocap }

def c4State : TrainerState :=
  { algorithm := "linear_regression", problem_type := "regression",
    hyperparameters := [("fit_intercept", 1)], model := some c4Model,
    scaler := none, label_encoder := none, feature_names := ["x"] }

def c4Bundle : ModelBundle :=
  { model := c4Model, scaler := none, label_encoder := none,
    feature_names := ["x"], algorithm := "linear_regression",
    problem_type := "regression" }

/-- Witness for C4 at a concrete trained trainer and input row. -/
theorem c4_artifact_roundtrip_witness :
    saveModel c4State = .ok c4Bundle ∧
    predictCore (loadModel c4Bundle) [("x", Col.num [some 3])] =
      predictCore c4State [("x", Col.num [some 3])] :=
  ⟨rfl, (c4_artifact_roundtrip c4State c4Bundle rfl).2.2.2.2.2.2.2
    [("x", Col.num [some 3])]⟩

/-- A model exposing nothing optional, for concrete metric runs. -/
def plainModel : Model :=
  { predictFn := fun _ => [], probaFn := none, importanceCap := .nocap }

/-- C6 counterexample.  With true labels `[0, 0]` (one distinct value)
and predicted labels `[1, 1]`, the confusion matrix is `2 × 2`, not
`1 × 1`: `sklearn.confusion_matrix` indexes over the sorted distinct
labels of the **union** of true and predicted values, not of the true
values alone. -/
theorem c6_confusion_dim_counterexample :
    (calculateMetricsCls [0, 0] [1, 1] plainModel []).confusion_matrix
      = [[0, 2], [0, 0]] ∧
    (npUniqueQ [0, 0]).length = 1 :=
  ⟨by decide, by decide⟩

/-- C6 (amended): for every classification run the confusion matrix is
a square integer matrix whose dimension is the number of distinct
labels occurring in the true **or** predicted values, with rows
indexed by true label and columns by predicted label over those sorted
distinct values: entry `(i, j)` counts the samples whose true label is
the `i`-th and predicted label the `j`-th sorted distinct value. -/
theorem c6_confusion_square_over_union (yT yP : List ℚ) (m : Model) (X : Matrix') (i j : ℕ)
    (hi : i < (npUniqueQ (yT ++ yP)).length)
    (hj : j < (npUniqueQ (yT ++ yP)).length) :
    (calculateMetricsCls yT yP m X).confusion_matrix.length
      = (npUniqueQ (yT ++ yP)).length ∧
    (∀ r ∈ (calculateMetricsCls yT yP m X).confusion_matrix,
      r.length = (npUniqueQ (yT ++ yP)).length) ∧
    ((calculateMetricsCls yT yP m X).confusion_matrix.getD i []).getD j 0
      = (yT.zip yP).countP (fun p =>
          p.1 = (npUniqueQ (yT ++ yP)).getD i 0 ∧
          p.2 = (npUniqueQ (yT ++ yP)).getD j 0) := by
  have hcm : (calculateMetricsCls yT yP m X).confusion_matrix
      = (npUniqueQ (yT ++ yP)).map (fun a => (npUniqueQ (yT ++ yP)).map (fun b =>
          (yT.zip yP).countP (fun p => p.1 = a ∧ p.2 = b))) := rfl
  have hgetD : ∀ (l : List ℚ) (n : ℕ) (hn : n < l.length),
      l.getD n 0 = l.get ⟨n, hn⟩ := by
    intro l n hn
    rw [List.getD_eq_getElem?_getD, List.getElem?_eq_getElem hn]
    rfl
  refine ⟨by rw [hcm, List.length_map], ?_, ?_⟩
  · intro r hr
    rw [hcm] at hr
    obtain ⟨a, _, hra⟩ := List.mem_map.mp hr
    rw [← hra, List.length_map]
  · rw [hcm]
    have hrow : ((npUniqueQ (yT ++ yP)).map (fun a => (npUniqueQ (yT ++ yP)).map (fun b =>
          (yT.zip yP).countP (fun p => p.1 = a ∧ p.2 = b)))).getD i []
        = (npUniqueQ (yT ++ yP)).map (fun b =>
          (yT.zip yP).countP (fun p => p.1 = (npUniqueQ (yT ++ yP))[i] ∧ p.2 = b)) := by
      rw [List.getD_eq_getElem?_getD, List.getElem?_map _ _ i,
        List.getElem?_eq_getElem hi]
      rfl
    rw [hrow]
    have hent : ((npUniqueQ (yT ++ yP)).map (fun b =>
          (yT.zip yP).countP (fun p => p.1 = (npUniqueQ (yT ++ yP))[i] ∧ p.2 = b))).getD j 0
        = (yT.zip yP).countP (fun p => p.1 = (npUniqueQ (yT ++ yP))[i]
            ∧ p.2 = (npUniqueQ (yT ++ yP))[j]) := by
      rw [List.getD_eq_getElem?_getD, List.getElem?_map _ _ j,
        List.getElem?_eq_getElem hj]
      rfl
    rw [hent, hgetD _ i hi, hgetD _ j hj]
    rfl

/-- Witness for the amended C6 theorem: entry `(0, 1)` of the concrete
matrix counts the two samples with true label `0` predicted as `1`. -/
theorem c6_confusion_witness :
    ((calculateMetricsCls [0, 0] [1, 1] plainModel []).confusion_matrix.getD 0 []).getD 1 0
      = 2 := by
  have h := (c6_confusion_square_over_union [0, 0] [1, 1] plainModel [] 0 1
    (by decide) (by decide)).2.2
  rw [h]
  decide

/-- C8: ROC-AUC is attempted only when the test target has exactly two
distinct values **and** the model has a `predict_proba` attribute: a
non-`None` ROC-AUC implies both; when either fails it is `None`; and
when `predict_proba` itself raises, the metric degrades to `None` while
every other metric field is exactly what a probability-less run
produces — the run continues, nothing aborts. -/
theorem c8_roc_auc_gate (yT yP : List ℚ) (m : Model) (X : Matrix') :
    ((calculateMetricsCls yT yP m X).roc_auc.isSome →
      (npUniqueQ yT).length = 2 ∧ ∃ pf, m.probaFn = some pf) ∧
    ((npUniqueQ yT).length ≠ 2 ∨ m.probaFn = none →
      (calculateMetricsCls yT yP m X).roc_auc = none) ∧
    (∀ pf, m.probaFn = some pf → pf X = none →
      calculateMetricsCls yT yP m X
        = calculateMetricsCls yT yP { m with probaFn := none } X ∧
      (calculateMetricsCls yT yP m X).roc_auc = none) := by
  have hroc : (calculateMetricsCls yT yP m X).roc_auc
      = if (npUniqueQ yT).length = 2 ∧ m.probaFn.isSome
        then rocAucTry yT m X else none := rfl
  refine ⟨?_, ?_, ?_⟩
  · intro hsome
    rw [hroc] at hsome
    by_cases hc : (npUniqueQ yT).length = 2 ∧ m.probaFn.isSome
    · exact ⟨hc.1, Option.isSome_iff_exists.mp hc.2⟩
    · rw [if_neg hc] at hsome
      cases hsome
  · intro hor
    rw [hroc, if_neg]
    intro hc
    rcases hor with h1 | h1
    · exact h1 hc.1
    · rw [h1] at hc
      cases hc.2
  · intro pf hpf hfail
    have hnone : (calculateMetricsCls yT yP m X).roc_auc = none := by
      rw [hroc]
      by_cases h2 : (npUniqueQ yT).length = 2 ∧ m.probaFn.isSome
      · rw [if_pos h2]
        unfold rocAucTry
        rw [hpf]
        dsimp only
        rw [hfail]
      · rw [if_neg h2]
    refine ⟨?_, hnone⟩
    obtain ⟨mp, mo, mi⟩ := m
    simp only [Option.some.injEq] at hpf
    unfold calculateMetricsCls
    dsimp only
    congr 1
    rw [← hroc, hnone]
    rw [if_neg (by simp)]

/-- C9: precision, recall and F1 use binary averaging exactly when
`len(np.unique(y_true)) == 2` and weighted averaging otherwise, and
every zero-division case (no positive predictions, no positive truths,
an absent label in the weighted per-label scores) yields `0` rather
than an error — the scores are total functions. -/
theorem c9_averaging (yT yP : List ℚ) (m : Model) (X : Matrix') :
    ((npUniqueQ yT).length = 2 →
      (calculateMetricsCls yT yP m X).precision = precisionBinary yT yP ∧
      (calculateMetricsCls yT yP m X).«recall» = recallBinary yT yP ∧
      (calculateMetricsCls yT yP m X).f1_score = f1Binary yT yP) ∧
    ((npUniqueQ yT).length ≠ 2 →
      (calculateMetricsCls yT yP m X).precision = precisionWeighted yT yP ∧
      (calculateMetricsCls yT yP m X).«recall» = recallWeighted yT yP ∧
      (calculateMetricsCls yT yP m X).f1_score = f1Weighted yT yP) ∧
    (tpOf yT yP 1 + fpOf yT yP 1 = 0 → precisionBinary yT yP = 0) ∧
    (tpOf yT yP 1 + fnOf yT yP 1 = 0 → recallBinary yT yP = 0) ∧
    (2 * tpOf yT yP 1 + fpOf yT yP 1 + fnOf yT yP 1 = 0 → f1Binary yT yP = 0) ∧
    (∀ l : ℚ,
      (tpOf yT yP l + fpOf yT yP l = 0 → precisionOf yT yP l = 0) ∧
      (tpOf yT yP l + fnOf yT yP l = 0 → recallOf yT yP l = 0) ∧
      (2 * tpOf yT yP l + fpOf yT yP l + fnOf yT yP l = 0 → f1Of yT yP l = 0)) := by
  refine ⟨?_, ?_, ?_, ?_, ?_, ?_⟩
  · intro h
    unfold calculateMetricsCls
    dsimp only
    exact ⟨by rw [if_pos h], by rw [if_pos h], by rw [if_pos h]⟩
  · intro h
    unfold calculateMetricsCls
    dsimp only
    exact ⟨by rw [if_neg h], by rw [if_neg h], by rw [if_neg h]⟩
  · intro h
    obtain ⟨h1, h2⟩ := Nat.add_eq_zero.mp h
    simp [precisionBinary, safeDiv, h1, h2]
  · intro h
    obtain ⟨h1, h2⟩ := Nat.add_eq_zero.mp h
    simp [recallBinary, safeDiv, h1, h2]
  · intro h
    obtain ⟨h12, h3⟩ := Nat.add_eq_zero.mp h
    obtain ⟨h1, h2⟩ := Nat.add_eq_zero.mp h12
    have htp : tpOf yT yP 1 = 0 := by omega
    simp [f1Binary, safeDiv, htp, h2, h3]
  · intro l
    refine ⟨fun h => ?_, fun h => ?_, fun h => ?_⟩
    · obtain ⟨h1, h2⟩ := Nat.add_eq_zero.mp h
      simp [precisionOf, safeDiv, h1, h2]
    · obtain ⟨h1, h2⟩ := Nat.add_eq_zero.mp h
      simp [recallOf, safeDiv, h1, h2]
    · obtain ⟨h12, h3⟩ := Nat.add_eq_zero.mp h
      obtain ⟨h1, h2⟩ := Nat.add_eq_zero.mp h12
      have htp : tpOf yT yP l = 0 := by omega
      simp [f1Of, safeDiv, htp, h2, h3]

/-- A model whose `predict_proba` exists but raises on every call. -/
def c8FailModel : Model :=
  { predictFn := fun _ => [], probaFn := some (fun _ => none), importanceCap := .nocap }

/-- Witness for C8: a failing `predict_proba` at a concrete binary
run: ROC-AUC is `None` and the metrics equal those of a
probability-less model. -/
theorem c8_roc_auc_witness :
    (calculateMetricsCls [0, 1] [0, 1] c8FailModel []).roc_auc = none ∧
    calculateMetricsCls [0, 1] [0, 1] c8FailModel []
      = calculateMetricsCls [0, 1] [0, 1] { c8FailModel with probaFn := none } [] := by
  have h := (c8_roc_auc_gate [0, 1] [0, 1] c8FailModel []).2.2 (fun _ => none) rfl rfl
  exact ⟨h.2, h.1⟩

/-- Witness for C9: a concrete binary run with no positive
predictions: binary averaging is selected and the zero-division case
returns `0`. -/
theorem c9_averaging_witness :
    (calculateMetricsCls [0, 1] [0, 0] plainModel []).precision = 0 := by
  have h := (c9_averaging [0, 1] [0, 0] plainModel []).1 (by decide)
  have hz := (c9_averaging [0, 1] [0, 0] plainModel []).2.2.1 (by decide)
  rw [h.1, hz]

instance : IsTotal FI (fun a b => b.importance ≤ a.importance) :=
  ⟨fun a b => le_total b.importance a.importance⟩

instance : IsTrans FI (fun a b => b.importance ≤ a.importance) :=
  ⟨fun _ _ _ h1 h2 => le_trans h2 h1⟩

def importanceListCorrect (s : TrainerState) (ws : List ℚ) : Prop :=
  (getFeatureImportance s).length = s.feature_names.length ∧
  ((getFeatureImportance s).map FI.feature).Perm s.feature_names ∧
  ((getFeatureImportance s).map FI.feature).Nodup ∧
  ((getFeatureImportance s).map FI.importance).Sorted (· ≥ ·) ∧
  (getFeatureImportance s).Perm ((s.feature_names.zip ws).map (fun p => ⟨p.1, p.2⟩))

lemma fi_package (names : List String) (ws : List ℚ) (hn : names.Nodup)
    (hl : ws.length = names.length) :
    (sortByImportanceDesc ((names.zip ws).map (fun p => ⟨p.1, p.2⟩))).length = names.length ∧
    ((sortByImportanceDesc ((names.zip ws).map (fun p => ⟨p.1, p.2⟩))).map FI.feature).Perm names ∧
    ((sortByImportanceDesc ((names.zip ws).map (fun p => ⟨p.1, p.2⟩))).map FI.feature).Nodup ∧
    ((sortByImportanceDesc ((names.zip ws).map (fun p => ⟨p.1, p.2⟩))).map FI.importance).Sorted (· ≥ ·) ∧
    (sortByImportanceDesc ((names.zip ws).map (fun p => ⟨p.1, p.2⟩))).Perm
      ((names.zip ws).map (fun p => ⟨p.1, p.2⟩)) := by
  have hperm : (sortByImportanceDesc ((names.zip ws).map (fun p => ⟨p.1, p.2⟩))).Perm
      ((names.zip ws).map (fun p => ⟨p.1, p.2⟩)) := List.perm_insertionSort _ _
  have hfeat : ((names.zip ws).map (fun p => (⟨p.1, p.2⟩ : FI))).map FI.feature = names := by
    rw [List.map_map]
    exact List.map_fst_zip names ws hl.symm.le
  have hpermf : ((sortByImportanceDesc ((names.zip ws).map (fun p => ⟨p.1, p.2⟩))).map
      FI.feature).Perm names := by
    have := hperm.map FI.feature
    rw [hfeat] at this
    exact this
  refine ⟨?_, hpermf, ?_, ?_, hperm⟩
  · rw [hperm.length_eq, List.length_map, List.length_zip, hl, Nat.min_self]
  · exact hpermf.nodup_iff.mpr hn
  · have hs := List.sorted_insertionSort (fun a b : FI => b.importance ≤ a.importance)
      ((names.zip ws).map (fun p => ⟨p.1, p.2⟩))
    exact List.pairwise_map.mpr hs

/-- C7: with no model or neither importance attribute the list is
empty (and that is not an error — the function totally returns `[]`);
otherwise, whenever the model's importance vector has one weight per
training feature and the training feature names are distinct (pandas
columns), the list has exactly one entry per training feature, no
duplicate feature names, is sorted non-increasing by importance, and
is a permutation of the name/weight pairing — where the weights of a
2-D coefficient model are the columnwise means of the absolute
coefficients (`np.abs(coef_).mean(axis=0)`) and those of a 1-D
coefficient model the absolute coefficients. -/
theorem c7_feature_importance (s : TrainerState) (m : Model) (hm : s.model = some m)
    (hn : s.feature_names.Nodup) :
    (m.importanceCap = .nocap → getFeatureImportance s = []) ∧
    (∀ ws, m.importanceCap = .native ws → ws.length = s.feature_names.length →
      importanceListCorrect s ws) ∧
    (∀ rows, m.importanceCap = .coef2 rows →
      (absMeanCols rows).length = s.feature_names.length →
      importanceListCorrect s (absMeanCols rows)) ∧
    (∀ cs, m.importanceCap = .coef1 cs → cs.length = s.feature_names.length →
      importanceListCorrect s (cs.map (fun x => |x|))) := by
  have hget : ∀ cap, m.importanceCap = cap → getFeatureImportance s =
      (match cap with
       | .native ws => sortByImportanceDesc ((s.feature_names.zip ws).map (fun p => ⟨p.1, p.2⟩))
       | .coef2 rows => sortByImportanceDesc
           ((s.feature_names.zip (absMeanCols rows)).map (fun p => ⟨p.1, p.2⟩))
       | .coef1 cs => sortByImportanceDesc
           ((s.feature_names.zip (cs.map (fun x => |x|))).map (fun p => ⟨p.1, p.2⟩))
       | .nocap => []) := by
    intro cap hcap
    unfold getFeatureImportance
    rw [hm]
    dsimp only
    rw [hcap]
  refine ⟨fun hcap => hget _ hcap, ?_, ?_, ?_⟩
  · intro ws hcap hl
    unfold importanceListCorrect
    rw [hget _ hcap]
    exact fi_package s.feature_names ws hn hl
  · intro rows hcap hl
    unfold importanceListCorrect
    rw [hget _ hcap]
    exact fi_package s.feature_names (absMeanCols rows) hn hl
  · intro cs hcap hl
    unfold importanceListCorrect
    rw [hget _ hcap]
    exact fi_package s.feature_names (cs.map (fun x => |x|)) hn (by rw [List.length_map]; exact hl)

def c7Model : Model :=
  { predictFn := fun _ => [], probaFn := none, importanceCap := .native [2, 5] }

def c7State : TrainerState :=
  { algorithm := "random_forest", problem_type := "classification",
    hyperparameters := [], model := some c7Model, scaler := none,
    label_encoder := none, feature_names := ["a", "b"] }

/-- Witness for C7 at a concrete tree-style model with two features. -/
theorem c7_feature_importance_witness :
    (getFeatureImportance c7State).length = 2 ∧
    ((getFeatureImportance c7State).map FI.feature).Nodup := by
  have h := (c7_feature_importance c7State c7Model rfl (by decide)).2.1 [2, 5] rfl (by decide)
  exact ⟨by rw [h.1]; rfl, h.2.2.1⟩

/-- The output column names `predictor.predict` may add. -/
def reservedNames : List String :=
  ["prediction", "confidence", "probability_class_0", "probability_class_1"]

lemma setCol_not_mem (df : DataFrame) (name : String) (c : Col)
    (h : name ∉ colNames df) : setCol df name c = df ++ [(name, c)] := by
  unfold setCol
  rw [if_neg h]

lemma colNames_append (df l : DataFrame) :
    colNames (df ++ l) = colNames df ++ colNames l := by
  simp [colNames]

lemma lookup_append_not_mem (df rest : DataFrame) (name : String)
    (h : name ∉ colNames df) :
    List.lookup name (df ++ rest) = List.lookup name rest := by
  induction df with
  | nil => rfl
  | cons hd tl ih =>
    obtain ⟨k, v⟩ := hd
    have hk : name ≠ k := fun hc => h (by simp [colNames, hc])
    rw [List.cons_append, List.lookup,
      show (name == k) = false from beq_eq_false_iff_ne.mpr hk]
    exact ih (fun hc => h (by simp [colNames] at hc ⊢; exact Or.inr hc))

lemma leInverseAll_length (cl : List String) (qs : List ℚ) (dec : List String)
    (h : leInverseAll cl qs = some dec) : dec.length = qs.length := by
  induction qs generalizing dec with
  | nil =>
    rw [show leInverseAll cl [] = ([] : List ℚ).mapM (leInverse cl) from rfl,
      List.mapM_nil] at h
    cases h
    rfl
  | cons q qs ih =>
    rw [show leInverseAll cl (q :: qs) = (q :: qs).mapM (leInverse cl) from rfl,
      List.mapM_cons] at h
    cases hv : leInverse cl q with
    | none => rw [hv] at h; cases h
    | some v =>
      rw [hv] at h
      cases hr : qs.mapM (leInverse cl) with
      | none => rw [hr] at h; cases h
      | some rest =>
        rw [hr] at h
        cases h
        have := ih rest hr
        simp [this]

lemma notMem_append_singleton (df : DataFrame) (n k : String) (c : Col)
    (hn : n ∉ colNames df) (hk : n ≠ k) : n ∉ colNames (df ++ [(k, c)]) := by
  rw [colNames_append]
  intro hc
  rcases List.mem_append.mp hc with hc | hc
  · exact hn hc
  · simp [colNames] at hc
    exact hk hc

/-- C10 (amended): on every successful prediction run whose input
column names avoid the four reserved output names, the output table is
the input table unchanged (same columns, values and row order, as a
prefix) followed by the added columns: a `prediction` column with one
entry per model prediction always; `confidence` exactly when the model
exposes `predict_proba`; and both class-probability columns exactly
when the probability matrix has two columns.  An input column that
**bears** one of the reserved names is overwritten in place (see the
counterexample), which is the one way the original claim fails. -/
theorem c10_frame_effect (t : TrainerState) (df : DataFrame) (m : Model) (out : DataFrame)
    (hm : t.model = some m) (h : predictCore t df = .ok out)
    (hres : ∀ f ∈ colNames df, f ∉ reservedNames) :
    out.take df.length = df ∧
    (List.lookup "prediction" out).isSome ∧
    (∀ pc, List.lookup "prediction" out = some pc →
      pc.length = (m.predictFn (inferenceMatrix t df)).length) ∧
    (("confidence" ∈ colNames out) ↔ m.probaFn.isSome) ∧
    (("probability_class_0" ∈ colNames out) ↔
      (∃ pf P, m.probaFn = some pf ∧ pf (inferenceMatrix t df) = some P ∧ P.ncols = 2)) ∧
    (("probability_class_1" ∈ colNames out) ↔
      (∃ pf P, m.probaFn = some pf ∧ pf (inferenceMatrix t df) = some P ∧ P.ncols = 2)) := by
  have hP : "prediction" ∉ colNames df := fun hc => hres _ hc (by decide)
  have hC : "confidence" ∉ colNames df := fun hc => hres _ hc (by decide)
  have h0 : "probability_class_0" ∉ colNames df := fun hc => hres _ hc (by decide)
  have h1 : "probability_class_1" ∉ colNames df := fun hc => hres _ hc (by decide)
  unfold predictCore at h
  by_cases hmiss : missingFeaturesOf t df ≠ []
  · rw [if_pos hmiss] at h; cases h
  · rw [if_neg hmiss] at h
    rw [hm] at h
    dsimp only at h
    cases hpf : m.probaFn with
    | none =>
      rw [hpf] at h
      dsimp only at h
      simp only [Except.ok.injEq] at h
      subst h
      rw [setCol_not_mem _ _ _ hP]
      refine ⟨List.take_left df _, ?_, ?_, ?_, ?_, ?_⟩
      · rw [lookup_append_not_mem _ _ _ hP]
        rfl
      · intro pc hpc
        rw [lookup_append_not_mem _ _ _ hP] at hpc
        simp [List.lookup] at hpc
        rw [← hpc]
        simp [Col.length]
      · constructor
        · intro hc
          exact absurd hc (notMem_append_singleton df _ _ _ hC (by decide))
        · intro hc
          simp at hc
      · constructor
        · intro hc
          exact absurd hc (notMem_append_singleton df _ _ _ h0 (by decide))
        · rintro ⟨pf, P, hpf', _, _⟩
          cases hpf'
      · constructor
        · intro hc
          exact absurd hc (notMem_append_singleton df _ _ _ h1 (by decide))
        · rintro ⟨pf, P, hpf', _, _⟩
          cases hpf'
    | some pf =>
      rw [hpf] at h
      dsimp only at h
      cases hPr : pf (inferenceMatrix t df) with
      | none => rw [hPr] at h; cases h
      | some P =>
        rw [hPr] at h
        dsimp only at h
        have hexists : ∀ pf' P', some pf = some pf' → pf' (inferenceMatrix t df) = some P' → P' = P := by
          intro pf' P' hpf' hP'
          cases hpf'
          rw [hPr] at hP'
          cases hP'
          rfl
        have hgetcol : ∀ pc : Col, ∀ rest : DataFrame,
            List.lookup "prediction" ((df ++ [("prediction", pc)]) ++ rest) = some pc := by
          intro pc rest
          rw [List.append_assoc, lookup_append_not_mem _ _ _ hP]
          rfl
        obtain ⟨predCol, hdecl, hpredlen⟩ :
            ∃ predCol, out = (if P.ncols = 2 then
                setCol (setCol (setCol (setCol df "prediction" predCol) "confidence"
                    (Col.num (P.rows.map (fun r => some (rowMax r)))))
                  "probability_class_0" (Col.num ((probaColumn0 P).map some)))
                  "probability_class_1" (Col.num ((probaColumn1 P).map some))
              else
                setCol (setCol df "prediction" predCol) "confidence"
                  (Col.num (P.rows.map (fun r => some (rowMax r))))) ∧
              predCol.length = (m.predictFn (inferenceMatrix t df)).length := by
          by_cases hcls : t.problem_type = "classification" ∧ t.label_encoder.isSome
          · rw [if_pos hcls] at h
            cases hdec : leInverseAll (t.label_encoder.getD []) (m.predictFn (inferenceMatrix t df)) with
            | none => rw [hdec] at h; cases h
            | some dec =>
              rw [hdec] at h
              dsimp only at h
              simp only [Except.ok.injEq] at h
              exact ⟨Col.cat dec, h.symm, by
                simp [Col.length, leInverseAll_length _ _ _ hdec]⟩
          · rw [if_neg hcls] at h
            dsimp only at h
            simp only [Except.ok.injEq] at h
            exact ⟨Col.num ((m.predictFn (inferenceMatrix t df)).map some), h.symm, by
              simp [Col.length]⟩
        have hCp : "confidence" ∉ colNames (df ++ [("prediction", predCol)]) :=
          notMem_append_singleton df _ _ _ hC (by decide)
        have h0p : "probability_class_0" ∉
            colNames ((df ++ [("prediction", predCol)]) ++
              [("confidence", Col.num (P.rows.map (fun r => some (rowMax r))))]) :=
          notMem_append_singleton _ _ _ _
            (notMem_append_singleton df _ _ _ h0 (by decide)) (by decide)
        have h1p : "probability_class_1" ∉
            colNames (((df ++ [("prediction", predCol)]) ++
              [("confidence", Col.num (P.rows.map (fun r => some (rowMax r))))]) ++
              [("probability_class_0", Col.num ((probaColumn0 P).map some))]) :=
          notMem_append_singleton _ _ _ _
            (notMem_append_singleton _ _ _ _
              (notMem_append_singleton df _ _ _ h1 (by decide)) (by decide)) (by decide)
        by_cases hn2 : P.ncols = 2
        · rw [if_pos hn2] at hdecl
          rw [setCol_not_mem _ _ _ hP, setCol_not_mem _ _ _ hCp,
            setCol_not_mem _ _ _ h0p, setCol_not_mem _ _ _ h1p] at hdecl
          subst hdecl
          refine ⟨?_, ?_, ?_, ?_, ?_, ?_⟩
          · rw [List.append_assoc, List.append_assoc, List.append_assoc]
            exact List.take_left df _
          · rw [List.append_assoc, List.append_assoc, List.append_assoc,
              lookup_append_not_mem _ _ _ hP]
            rfl
          · intro pc hpc
            rw [List.append_assoc, List.append_assoc, List.append_assoc,
              lookup_append_not_mem _ _ _ hP] at hpc
            simp [List.lookup] at hpc
            rw [← hpc]
            exact hpredlen
          · constructor
            · intro _; rfl
            · intro _
              simp [colNames_append, colNames]
          · constructor
            · intro _
              exact ⟨pf, P, rfl, hPr, hn2⟩
            · intro _
              simp [colNames_append, colNames]
          · constructor
            · intro _
              exact ⟨pf, P, rfl, hPr, hn2⟩
            · intro _
              simp [colNames_append, colNames]
        · rw [if_neg hn2] at hdecl
          rw [setCol_not_mem _ _ _ hP, setCol_not_mem _ _ _ hCp] at hdecl
          subst hdecl
          refine ⟨?_, ?_, ?_, ?_, ?_, ?_⟩
          · rw [List.append_assoc]
            exact List.take_left df _
          · rw [List.append_assoc, lookup_append_not_mem _ _ _ hP]
            rfl
          · intro pc hpc
            rw [List.append_assoc, lookup_append_not_mem _ _ _ hP] at hpc
            simp [List.lookup] at hpc
            rw [← hpc]
            exact hpredlen
          · constructor
            · intro _; rfl
            · intro _
              simp [colNames_append, colNames]
          · constructor
            · intro hc
              simp only [colNames_append, List.mem_append] at hc
              rcases hc with (hc | hc) | hc
              · exact absurd hc h0
              · simp [colNames] at hc
              · simp [colNames] at hc
            · rintro ⟨pf', P', hpf', hP', hn2'⟩
              have := hexists pf' P' hpf' hP'
              rw [this] at hn2'
              exact absurd hn2' hn2
          · constructor
            · intro hc
              simp only [colNames_append, List.mem_append] at hc
              rcases hc with (hc | hc) | hc
              · exact absurd hc h1
              · simp [colNames] at hc
              · simp [colNames] at hc
            · rintro ⟨pf', P', hpf', hP', hn2'⟩
              have := hexists pf' P' hpf' hP'
              rw [this] at hn2'
              exact absurd hn2' hn2

def c10Model : Model :=
  { predictFn := fun _ => [0], probaFn := none, importanceCap := .nocap }

def c10State : TrainerState :=
  { algorithm := "linear_regression", problem_type := "regression",
    hyperparameters := [], model := some c10Model, scaler := none,
    label_encoder := none, feature_names := ["x"] }

def c10Input : DataFrame := [("x", Col.num [some 1]), ("prediction", Col.num [some 99])]

/-- C10 counterexample.  An input that already has a `prediction`
column (value `99`) is not preserved: pandas column assignment
overwrites it with the model's prediction `0`, so not every input
column survives with its values unchanged. -/
theorem c10_frame_counterexample :
    List.lookup "prediction" c10Input = some (Col.num [some 99]) ∧
    predictCore c10State c10Input =
      .ok [("x", Col.num [some 1]), ("prediction", Col.num [some 0])] :=
  ⟨by decide, by decide⟩

def c10CleanInput : DataFrame := [("x", Col.num [some 1])]

/-- Witness for the amended C10 theorem at a concrete clean-named run:
the input survives as a prefix and no confidence column is added for a
probability-less model. -/
theorem c10_frame_effect_witness :
    (([("x", Col.num [some 1]), ("prediction", Col.num [some 0])] : DataFrame).take
        (c10CleanInput : DataFrame).length = c10CleanInput) ∧
    "confidence" ∉ colNames [("x", Col.num [some 1]), ("prediction", Col.num [some 0])] := by
  have h := c10_frame_effect c10State c10CleanInput c10Model
    [("x", Col.num [some 1]), ("prediction", Col.num [some 0])] rfl (by decide) (by decide)
  refine ⟨h.1, fun hc => ?_⟩
  have h2 := h.2.2.2.1.mp hc
  exact absurd h2 (by decide)
